import Mathlib

/-!
Verification of the weighted-length tweet parser (`parse_tweet.py`).

Texts are modelled as lists of Unicode code points (`List Nat`).  The external
collaborators that are not part of the scanned source — the NFC normalizer
(`unicodedata.normalize`), the URL span extractor (`extract_urls_with_indices`),
the emoji span extractor (`extract_emojis_with_indices`) and the
invalid-character predicate (`has_invalid_characters`) — are passed to
`parse_tweet` as function parameters, mirroring their contracts.  The
per-character weight lookup (`get_character_weight`) is modelled from the spec,
as its source file is not available.
-/

/-- A weight range from the configuration: `{start, end, weight}` with inclusive
bounds over code points.  (`end` is a Lean keyword, so the field is `endIdx`.) -/
structure WeightRange where
  start : Nat
  endIdx : Nat
  weight : Nat
deriving DecidableEq, Repr

/-- The recognized configuration options, from the `options` dictionary of
`parse_tweet` (the `version` key is never read by the core and is omitted). -/
structure Options where
  scale : Nat
  default_weight : Nat
  max_weighted_tweet_length : Nat
  transformed_url_length : Nat
  emoji_parsing_enabled : Bool
  ranges : List WeightRange
deriving DecidableEq, Repr

/-- The default configuration `config['defaults']` as documented in the
`parse_tweet` docstring. -/
def defaultOptions : Options :=
  { scale := 100
    default_weight := 200
    max_weighted_tweet_length := 280
    transformed_url_length := 23
    emoji_parsing_enabled := true
    ranges := [⟨0, 4351, 100⟩, ⟨8192, 8205, 100⟩, ⟨8208, 8223, 100⟩, ⟨8242, 8247, 100⟩] }

/-- An extractor entity: the dictionaries produced by
`extract_urls_with_indices` / `extract_emojis_with_indices`.  The field `text`
holds the value at the `'url'` (resp. `'emoji'`) key — the matched substring as
a list of code points — and `indices` the `'indices'` pair. -/
structure Entity where
  text : List Nat
  indices : Nat × Nat
deriving DecidableEq, Repr

/-- `transform_entities_to_hash`: builds the dict
`{entity['indices'][0]: entity for entity in entities}`.  In a Python dict
comprehension a later entity overwrites an earlier one with the same key, hence
the lookup scans the reversed list. -/
def transform_entities_to_hash (entities : List Entity) : Nat → Option Entity :=
  fun i => entities.reverse.find? (fun e => e.indices.fst == i)

/-- Modelled from the spec: `get_character_weight` (file
`get_character_weight.py`, which is not under `src/`).  Per §6, the Weight
Table Lookup returns the weight of the first configured range whose inclusive
`start`/`end` bounds contain the code point, and `default_weight` for any code
point not covered by the ranges. -/
def get_character_weight (ch : Nat) (options : Options) : Nat :=
  match options.ranges.find? (fun r => decide (r.start ≤ ch) && decide (ch ≤ r.endIdx)) with
  | some r => r.weight
  | none => options.default_weight

/-- Python's `text.encode('utf-16')` for one code point (the payload after the
BOM): code points below `0x10000` encode as one little-endian 16-bit unit, the
rest as a surrogate pair (two units). -/
def encode_utf16_char (cp : Nat) : List Nat :=
  if cp < 0x10000 then
    [cp % 256, cp / 256]
  else
    let v := cp - 0x10000
    let hi := 0xD800 + v / 0x400
    let lo := 0xDC00 + v % 0x400
    [hi % 256, hi / 256, lo % 256, lo / 256]

/-- Python's `text.encode('utf-16')`: a 2-byte byte-order mark followed by the
little-endian UTF-16 encoding of each code point. -/
def encode_utf16 (s : List Nat) : List Nat :=
  [0xFF, 0xFE] ++ (s.map encode_utf16_char).flatten

/-- `count_utf16_bytes(text) = len(text.encode('utf-16')) // 2 - 1`. -/
def count_utf16_bytes (s : List Nat) : Nat :=
  (encode_utf16 s).length / 2 - 1

/-- The number of UTF-16 code units of a string, written directly as the spec
describes it: each code point below `0x10000` counts 1 unit, the rest 2. -/
def utf16_units (s : List Nat) : Nat :=
  (s.map (fun cp => if cp < 0x10000 then 1 else 2)).sum

/-- The ephemeral scan state of the `while` loop of `parse_tweet`:
`weighted_length`, `valid_display_index`, `valid` and `char_index`. -/
structure ScanState where
  weighted_length : Nat
  valid_display_index : Nat
  valid : Bool
  char_index : Nat
deriving DecidableEq, Repr

/-- The initial scan state of `parse_tweet`: `weighted_length = 0`,
`valid_display_index = 0`, `valid = True`, `char_index = 0`. -/
def initialScanState : ScanState :=
  { weighted_length := 0, valid_display_index := 0, valid := true, char_index := 0 }

/-- One iteration of the `while` loop of `parse_tweet` (lines 135–152):
URL branch, emoji branch (when enabled) or plain-character branch, followed by
the invalid-character check, the boundary update, and `char_index += 1`. -/
def scanStep (normalized_text : List Nat) (url_entities_map emoji_entities_map : Nat → Option Entity)
    (has_invalid_characters : List Nat → Bool) (options : Options) (s : ScanState) : ScanState :=
  let (weighted_length, char_index) :=
    match url_entities_map s.char_index with
    | some url_entity =>
        (s.weighted_length + options.transformed_url_length * options.scale,
         s.char_index + (url_entity.text.length - 1))
    | none =>
        match options.emoji_parsing_enabled, emoji_entities_map s.char_index with
        | true, some emoji_entity =>
            (s.weighted_length + get_character_weight emoji_entity.text.headI options,
             s.char_index + (emoji_entity.text.length - 1))
        | _, _ =>
            (s.weighted_length + get_character_weight (normalized_text.getD s.char_index 0) options,
             s.char_index)
  let valid :=
    if s.valid then !(has_invalid_characters ((normalized_text.drop char_index).take 1))
    else s.valid
  let valid_display_index :=
    if valid && decide (weighted_length ≤ options.max_weighted_tweet_length * options.scale) then
      char_index
    else s.valid_display_index
  { weighted_length := weighted_length
    valid_display_index := valid_display_index
    valid := valid
    char_index := char_index + 1 }

/-- The `while char_index < len(normalized_text)` loop, with explicit fuel.
Every iteration advances `char_index` by at least one (extractor spans are
nonempty), so fuel `normalized_text.length` runs the loop to completion. -/
def scanLoop (normalized_text : List Nat) (url_entities_map emoji_entities_map : Nat → Option Entity)
    (has_invalid_characters : List Nat → Bool) (options : Options) :
    Nat → ScanState → ScanState
  | 0, s => s
  | fuel + 1, s =>
      if s.char_index < normalized_text.length then
        scanLoop normalized_text url_entities_map emoji_entities_map
          has_invalid_characters options fuel
          (scanStep normalized_text url_entities_map emoji_entities_map
            has_invalid_characters options s)
      else s

/-- Fuel-bounded bit length: `bitLength fuel n` is the number of binary digits
of `n` (0 for `n = 0`) whenever `n < 2 ^ fuel`; fuel 128 covers every quantity
in this development.  Structural recursion on the fuel keeps the function
kernel-reducible. -/
def bitLength : Nat → Nat → Nat
  | 0, _ => 0
  | fuel + 1, n => if n = 0 then 0 else bitLength fuel (n / 2) + 1

/-- `ltTwoPow n d e` decides `n / d < 2 ^ e` over the nonnegative rationals by
cross-multiplication, for an integer exponent `e`. -/
def ltTwoPow (n d : Nat) (e : Int) : Bool :=
  if 0 ≤ e then n < d * 2 ^ e.toNat else n * 2 ^ (-e).toNat < d

/-- `⌊log₂ (n / d)⌋` for a positive rational `n / d`:  the bit lengths give the
answer up to one, and one comparison settles it. -/
def floorLog2 (n d : Nat) : Int :=
  let e0 : Int := (bitLength 128 n : Int) - (bitLength 128 d : Int)
  if ltTwoPow n d e0 then e0 - 1 else e0

/-- The integer nearest to `N / D`, ties going to the even integer. -/
def roundNearestEven (N D : Nat) : Nat :=
  let f := N / D
  let r := N % D
  if 2 * r < D then f
  else if D < 2 * r then f + 1
  else if f % 2 = 0 then f else f + 1

/-- Round the nonnegative rational `n / d` to the nearest IEEE 754 binary64
value (round to nearest, ties to even), returned as a numerator/denominator
pair whose denominator is a power of two; the rounded mantissa carries 53
significant bits.  Faithful on binary64's normal range, which covers every
value arising in the permillage computation below. -/
def fl64 (n d : Nat) : Nat × Nat :=
  if n = 0 then (0, 1)
  else
    let e := floorLog2 n d
    let s := e - 52
    if 0 ≤ s then (roundNearestEven n (d * 2 ^ s.toNat) * 2 ^ s.toNat, 1)
    else (roundNearestEven (n * 2 ^ (-s).toNat) d, 2 ^ (-s).toNat)

/-- Line 161's `floor((weighted_length / max_weighted_tweet_length) * 1000)`
as CPython evaluates it in binary64 floating point: the true division of the
two integers is correctly rounded to binary64, the product with 1000 is rounded
to binary64 again, and the floor of the resulting value is taken. -/
def float_floor_permillage (wl mx : Nat) : Nat :=
  let q1 := fl64 wl mx
  let q2 := fl64 (q1.fst * 1000) q1.snd
  q2.fst / q2.snd

/-- The result record of `parse_tweet`. -/
structure ParsedResult where
  valid : Bool
  weightedLength : Nat
  permillage : Int
  validRangeStart : Int
  validRangeEnd : Int
  displayRangeStart : Int
  displayRangeEnd : Int
deriving DecidableEq, Repr

/-- `parse_tweet`, parameterized by its external collaborators: `nfc` models
`unicodedata.normalize('NFC', ·)`, the two extractors model
`extract_urls_with_indices` / `extract_emojis_with_indices`, and
`has_invalid_characters` the invalid-character predicate.  Python's
`int(weighted_length / scale)` is modelled as natural division (the float
round trip is exact at these magnitudes), and line 161's floating-point
permillage computation is modelled bit-faithfully by `float_floor_permillage`. -/
def parse_tweet (nfc : List Nat → List Nat)
    (extract_urls_with_indices extract_emojis_with_indices : List Nat → List Entity)
    (has_invalid_characters : List Nat → Bool)
    (text : List Nat) (options : Options) : ParsedResult :=
  let scale := options.scale
  let max_weighted_tweet_length := options.max_weighted_tweet_length
  let normalized_text := nfc text
  let url_entities_map := transform_entities_to_hash (extract_urls_with_indices normalized_text)
  let emoji_entities_map := transform_entities_to_hash (extract_emojis_with_indices normalized_text)
  let final := scanLoop normalized_text url_entities_map emoji_entities_map
    has_invalid_characters options normalized_text.length initialScanState
  let weighted_length := final.weighted_length / scale
  let valid_display_offset : Int :=
    (count_utf16_bytes (normalized_text.take (final.valid_display_index + 1)) : Int) - 1
  let normalization_offset : Int :=
    (count_utf16_bytes text : Int) - (count_utf16_bytes normalized_text : Int)
  { valid := final.valid && decide (0 < weighted_length)
        && decide (weighted_length ≤ max_weighted_tweet_length)
    weightedLength := weighted_length
    permillage := (float_floor_permillage weighted_length max_weighted_tweet_length : Int)
    validRangeStart := 0
    validRangeEnd := valid_display_offset + normalization_offset
    displayRangeStart := 0
    displayRangeEnd :=
      if 0 < count_utf16_bytes text then (count_utf16_bytes text : Int) - 1 else 0 }

/-- An entity map with no entries, used to instantiate the scan on texts that
contain no URL or emoji spans. -/
def noEntities : Nat → Option Entity := fun _ => none

/-- An extractor returning no spans. -/
def noSpans : List Nat → List Entity := fun _ => []

/-- An invalid-character predicate that accepts everything. -/
def noInvalid : List Nat → Bool := fun _ => false

/-! ### Helper lemmas -/

theorem encode_utf16_char_length (cp : Nat) :
    (encode_utf16_char cp).length = 2 * (if cp < 0x10000 then 1 else 2) := by
  unfold encode_utf16_char
  split <;> rfl

theorem length_flatten_encode (s : List Nat) :
    ((s.map encode_utf16_char).flatten).length = 2 * utf16_units s := by
  induction s with
  | nil => rfl
  | cons c t ih =>
      simp only [List.map_cons, List.flatten_cons, List.length_append, ih,
        encode_utf16_char_length, utf16_units, List.sum_cons]
      ring

theorem count_utf16_bytes_eq_utf16_units (s : List Nat) :
    count_utf16_bytes s = utf16_units s := by
  have h := length_flatten_encode s
  simp only [count_utf16_bytes, encode_utf16, List.length_append, h, List.length_cons,
    List.length_nil]
  omega

theorem utf16_units_take_le (l : List Nat) (n : Nat) :
    utf16_units (l.take n) ≤ utf16_units l := by
  unfold utf16_units
  conv_rhs => rw [← List.take_append_drop n l]
  rw [List.map_append, List.sum_append]
  exact Nat.le_add_right _ _

theorem utf16_units_pos (l : List Nat) (h : l ≠ []) : 1 ≤ utf16_units l := by
  cases l with
  | nil => exact absurd rfl h
  | cons c t =>
      unfold utf16_units
      simp only [List.map_cons, List.sum_cons]
      split <;> omega

theorem scanLoop_zero (nt : List Nat) (uM eM : Nat → Option Entity) (inv : List Nat → Bool)
    (opts : Options) (s : ScanState) : scanLoop nt uM eM inv opts 0 s = s := rfl

theorem scanLoop_succ (nt : List Nat) (uM eM : Nat → Option Entity) (inv : List Nat → Bool)
    (opts : Options) (fuel : Nat) (s : ScanState) :
    scanLoop nt uM eM inv opts (fuel + 1) s =
      if s.char_index < nt.length then
        scanLoop nt uM eM inv opts fuel (scanStep nt uM eM inv opts s)
      else s := rfl

theorem scanStep_url (nt : List Nat) (uM eM : Nat → Option Entity) (inv : List Nat → Bool)
    (opts : Options) (s : ScanState) (e : Entity) (hu : uM s.char_index = some e) :
    (scanStep nt uM eM inv opts s).weighted_length
        = s.weighted_length + opts.transformed_url_length * opts.scale ∧
    (scanStep nt uM eM inv opts s).char_index = s.char_index + (e.text.length - 1) + 1 := by
  simp [scanStep, hu]

theorem scanStep_emoji (nt : List Nat) (uM eM : Nat → Option Entity) (inv : List Nat → Bool)
    (opts : Options) (s : ScanState) (e : Entity) (hu : uM s.char_index = none)
    (henb : opts.emoji_parsing_enabled = true) (he : eM s.char_index = some e) :
    (scanStep nt uM eM inv opts s).weighted_length
        = s.weighted_length + get_character_weight e.text.headI opts ∧
    (scanStep nt uM eM inv opts s).char_index = s.char_index + (e.text.length - 1) + 1 := by
  simp [scanStep, hu, henb, he]

theorem scanStep_plain (nt : List Nat) (uM eM : Nat → Option Entity) (inv : List Nat → Bool)
    (opts : Options) (s : ScanState) (hu : uM s.char_index = none)
    (he : opts.emoji_parsing_enabled = false ∨ eM s.char_index = none) :
    (scanStep nt uM eM inv opts s).weighted_length
        = s.weighted_length + get_character_weight (nt.getD s.char_index 0) opts ∧
    (scanStep nt uM eM inv opts s).char_index = s.char_index + 1 := by
  rcases he with he | he
  · cases h : eM s.char_index <;> simp [scanStep, hu, he, h]
  · cases henb : opts.emoji_parsing_enabled <;> simp [scanStep, hu, he, henb]

theorem scanStep_valid_false (nt : List Nat) (uM eM : Nat → Option Entity)
    (inv : List Nat → Bool) (opts : Options) (s : ScanState) (h : s.valid = false) :
    (scanStep nt uM eM inv opts s).valid = false := by
  rcases hu : uM s.char_index with _ | e
  · rcases henb : opts.emoji_parsing_enabled with _ | _ <;>
      rcases he : eM s.char_index with _ | em <;>
        simp [scanStep, hu, henb, he, h]
  · simp [scanStep, hu, h]

theorem scanLoop_weight_sum (nt : List Nat) (uM eM : Nat → Option Entity)
    (inv : List Nat → Bool) (opts : Options)
    (hurl : ∀ i, uM i = none)
    (hemoji : opts.emoji_parsing_enabled = false ∨ ∀ i, eM i = none)
    (fuel : Nat) :
    ∀ s : ScanState, nt.length ≤ fuel + s.char_index →
      (scanLoop nt uM eM inv opts fuel s).weighted_length
        = s.weighted_length
          + ((nt.drop s.char_index).map (fun c => get_character_weight c opts)).sum := by
  induction fuel with
  | zero =>
      intro s hs
      have hdrop : nt.drop s.char_index = [] := List.drop_eq_nil_of_le (by omega)
      rw [scanLoop_zero, hdrop]
      simp
  | succ f ih =>
      intro s hs
      rw [scanLoop_succ]
      by_cases hlt : s.char_index < nt.length
      · rw [if_pos hlt]
        obtain ⟨hw, hc⟩ := scanStep_plain nt uM eM inv opts s (hurl s.char_index)
          (hemoji.imp_right fun h => h s.char_index)
        rw [ih _ (by rw [hc]; omega), hw, hc]
        rw [show nt.drop s.char_index
              = nt.getD s.char_index 0 :: nt.drop (s.char_index + 1) by
            rw [List.getD_eq_getElem nt 0 hlt]
            exact List.drop_eq_getElem_cons hlt]
        simp only [List.map_cons, List.sum_cons]
        omega
      · rw [if_neg hlt]
        have hdrop : nt.drop s.char_index = [] := List.drop_eq_nil_of_le (by omega)
        rw [hdrop]
        simp

theorem sum_map_const_weight (opts : Options) (w : Nat) :
    ∀ l : List Nat, (∀ c ∈ l, get_character_weight c opts = w) →
      (l.map (fun c => get_character_weight c opts)).sum = w * l.length := by
  intro l
  induction l with
  | nil => intro _; simp
  | cons c t ih =>
      intro h
      simp only [List.map_cons, List.sum_cons, List.length_cons,
        h c (List.mem_cons_self c t), ih fun x hx => h x (List.mem_cons_of_mem c hx)]
      ring

theorem ranges_bound_aux (t norm : List Nat) (k : Nat) :
    (count_utf16_bytes (norm.take (k + 1)) : Int) - 1
        + ((count_utf16_bytes t : Int) - (count_utf16_bytes norm : Int))
      ≤ if 0 < count_utf16_bytes t then (count_utf16_bytes t : Int) - 1 else 0 := by
  have h1 := utf16_units_take_le norm (k + 1)
  simp only [count_utf16_bytes_eq_utf16_units]
  split <;> omega

theorem ranges_pos_aux (t norm : List Nat) (k : Nat) (ht : t ≠ [])
    (hdrift : count_utf16_bytes norm ≤ count_utf16_bytes t) :
    0 ≤ (count_utf16_bytes (norm.take (k + 1)) : Int) - 1
        + ((count_utf16_bytes t : Int) - (count_utf16_bytes norm : Int)) := by
  have h2 := utf16_units_pos t ht
  simp only [count_utf16_bytes_eq_utf16_units] at hdrift ⊢
  rcases eq_or_ne norm [] with h | h
  · subst h
    simp only [List.take_nil]
    have h0 : utf16_units [] = 0 := rfl
    omega
  · have h1 : 1 ≤ utf16_units (norm.take (k + 1)) := by
      apply utf16_units_pos
      simp [List.take_eq_nil_iff, h]
    omega

/-- **C1** (corrected).  The upper bound `validRangeEnd ≤ displayRangeEnd`
holds unconditionally, for every input text, configuration and collaborator
instantiation.  The lower bound `0 ≤ validRangeEnd` holds for every non-empty
input text whose normalization does not increase the UTF-16 code-unit count;
it fails for the empty text (where the code returns `validRangeEnd = -1`) and
can fail for a non-empty text under a code-unit-lengthening normalization. -/
theorem c1_valid_range_bounds (nfc : List Nat → List Nat)
    (eu ee : List Nat → List Entity) (inv : List Nat → Bool)
    (t : List Nat) (opts : Options) :
    (parse_tweet nfc eu ee inv t opts).validRangeEnd
      ≤ (parse_tweet nfc eu ee inv t opts).displayRangeEnd ∧
    (t ≠ [] → count_utf16_bytes (nfc t) ≤ count_utf16_bytes t →
      0 ≤ (parse_tweet nfc eu ee inv t opts).validRangeEnd) :=
  ⟨ranges_bound_aux t (nfc t) _,
   fun ht hdrift => ranges_pos_aux t (nfc t) _ ht hdrift⟩

/-- **C1** counterexample, refuting `0 ≤ validRangeEnd` as the claim states it
at two explicit inputs: the empty text yields `validRangeEnd = -1`; and the
non-empty text U+0958, whose NFC normalization U+0915 U+093C is one UTF-16
unit longer, also yields `validRangeEnd = -1` under a configuration with
`max_weighted_tweet_length = 0` (budget exhausted at the first code point), so
restricting the lower bound to non-empty texts alone would not suffice. -/
theorem c1_counterexample :
    (parse_tweet id noSpans noSpans noInvalid [] defaultOptions).validRangeEnd < 0 ∧
    (parse_tweet (fun s => if s = [2392] then [2325, 2364] else s)
        noSpans noSpans noInvalid [2392]
        { defaultOptions with max_weighted_tweet_length := 0 }).validRangeEnd < 0 := by
  constructor <;> decide

/-- **C1** witness: the amended bounds instantiated on the one-character text
`"a"` with identity normalization and no extracted spans. -/
theorem c1_witness :
    (parse_tweet id noSpans noSpans noInvalid [97] defaultOptions).validRangeEnd
      ≤ (parse_tweet id noSpans noSpans noInvalid [97] defaultOptions).displayRangeEnd ∧
    ([97] : List Nat) ≠ [] ∧
    count_utf16_bytes (id [97]) ≤ count_utf16_bytes [97] ∧
    0 ≤ (parse_tweet id noSpans noSpans noInvalid [97] defaultOptions).validRangeEnd :=
  ⟨(c1_valid_range_bounds id noSpans noSpans noInvalid [97] defaultOptions).1,
   by decide, by decide,
   (c1_valid_range_bounds id noSpans noSpans noInvalid [97] defaultOptions).2
      (by decide) (by decide)⟩

/-- **C2** counterexample: scanning the single character `'a'` (code point 97,
table weight 100) under the default configuration (`scale = 100`) adds 100 to
the running weighted sum, not `100 * scale = 10000`: the Scanning Engine does
not multiply table weights by `scale` on ingestion. -/
theorem c2_counterexample :
    ¬ (scanStep [97] noEntities noEntities noInvalid defaultOptions
          initialScanState).weighted_length
        = initialScanState.weighted_length
            + get_character_weight 97 defaultOptions * defaultOptions.scale := by
  decide

/-- **C2** (corrected): in the plain-character and the emoji branch the
Scanning Engine adds the weight returned by the Weight Table Lookup as is,
without multiplying by `config.scale` (the configured table weights already
come in scaled units); only the URL branch multiplies by `scale`. -/
theorem c2_table_weight_unscaled (nt : List Nat) (uM eM : Nat → Option Entity)
    (inv : List Nat → Bool) (opts : Options) (s : ScanState) :
    (∀ e : Entity, uM s.char_index = none → opts.emoji_parsing_enabled = true →
      eM s.char_index = some e →
      (scanStep nt uM eM inv opts s).weighted_length
        = s.weighted_length + get_character_weight e.text.headI opts) ∧
    (uM s.char_index = none →
      (opts.emoji_parsing_enabled = false ∨ eM s.char_index = none) →
      (scanStep nt uM eM inv opts s).weighted_length
        = s.weighted_length + get_character_weight (nt.getD s.char_index 0) opts) :=
  ⟨fun e hu henb he => (scanStep_emoji nt uM eM inv opts s e hu henb he).1,
   fun hu he => (scanStep_plain nt uM eM inv opts s hu he).1⟩

/-- **C2** witness: the unscaled ingestion instantiated on an emoji step (the
mask emoji, default weight 200) and on a plain-character step (`'a'`,
range weight 100). -/
theorem c2_witness :
    noEntities (0 : Nat) = none ∧
    defaultOptions.emoji_parsing_enabled = true ∧
    (scanStep [128567] noEntities
        (fun i => if i == 0 then some (⟨[128567], (0, 1)⟩ : Entity) else none)
        noInvalid defaultOptions initialScanState).weighted_length = 200 ∧
    (scanStep [97] noEntities noEntities noInvalid defaultOptions
        initialScanState).weighted_length = 100 :=
  ⟨rfl, rfl,
   (c2_table_weight_unscaled [128567] noEntities
      (fun i => if i == 0 then some (⟨[128567], (0, 1)⟩ : Entity) else none)
      noInvalid defaultOptions initialScanState).1 ⟨[128567], (0, 1)⟩ rfl rfl rfl,
   (c2_table_weight_unscaled [97] noEntities noEntities noInvalid defaultOptions
      initialScanState).2 rfl (Or.inr rfl)⟩

/-- **C3** (confirmed): when the scan index is the start of a URL span with a
nonempty matched text, that step adds exactly
`transformed_url_length * scale` to the pre-descale weighted sum — independent
of the span's extent — and the scan resumes at the first index past the span,
so no character inside the span is weighted individually. -/
theorem c3_url_flat_weight (nt : List Nat) (uM eM : Nat → Option Entity)
    (inv : List Nat → Bool) (opts : Options) (s : ScanState) (e : Entity)
    (hu : uM s.char_index = some e) (hne : e.text ≠ []) :
    (scanStep nt uM eM inv opts s).weighted_length
        = s.weighted_length + opts.transformed_url_length * opts.scale ∧
    (scanStep nt uM eM inv opts s).char_index = s.char_index + e.text.length := by
  obtain ⟨hw, hc⟩ := scanStep_url nt uM eM inv opts s e hu
  refine ⟨hw, ?_⟩
  rw [hc]
  have := List.length_pos.mpr hne
  omega

/-- **C3** witness: a two-code-point URL span starting at index 0 contributes
`23 * 100 = 2300` and the scan resumes at index 2. -/
theorem c3_witness :
    (fun i => if i == 0 then some (⟨[104, 116], (0, 2)⟩ : Entity) else none) (0 : Nat)
        = some (⟨[104, 116], (0, 2)⟩ : Entity) ∧
    ([104, 116] : List Nat) ≠ [] ∧
    ((scanStep [104, 116]
        (fun i => if i == 0 then some (⟨[104, 116], (0, 2)⟩ : Entity) else none)
        noEntities noInvalid defaultOptions initialScanState).weighted_length = 2300 ∧
      (scanStep [104, 116]
        (fun i => if i == 0 then some (⟨[104, 116], (0, 2)⟩ : Entity) else none)
        noEntities noInvalid defaultOptions initialScanState).char_index = 2) :=
  ⟨rfl, by decide,
   c3_url_flat_weight [104, 116]
      (fun i => if i == 0 then some (⟨[104, 116], (0, 2)⟩ : Entity) else none)
      noEntities noInvalid defaultOptions initialScanState
      ⟨[104, 116], (0, 2)⟩ rfl (by decide)⟩

/-- **C4** (confirmed): with `emoji_parsing_enabled` an emoji span contributes
the table weight of its first code point exactly once and the scan skips the
remaining code points of the cluster; with emoji parsing disabled (and no URL
spans) every code point is weighted individually, so a cluster contributes the
sum of the per-code-point table weights. -/
theorem c4_emoji_weighting :
    (∀ (nt : List Nat) (uM eM : Nat → Option Entity) (inv : List Nat → Bool)
        (opts : Options) (s : ScanState) (e : Entity),
      opts.emoji_parsing_enabled = true → uM s.char_index = none →
      eM s.char_index = some e → e.text ≠ [] →
      (scanStep nt uM eM inv opts s).weighted_length
          = s.weighted_length + get_character_weight e.text.headI opts ∧
      (scanStep nt uM eM inv opts s).char_index = s.char_index + e.text.length) ∧
    (∀ (cluster : List Nat) (uM eM : Nat → Option Entity) (inv : List Nat → Bool)
        (opts : Options),
      opts.emoji_parsing_enabled = false → (∀ i, uM i = none) →
      (scanLoop cluster uM eM inv opts cluster.length initialScanState).weighted_length
        = (cluster.map (fun c => get_character_weight c opts)).sum) := by
  constructor
  · intro nt uM eM inv opts s e henb hu he hne
    obtain ⟨hw, hc⟩ := scanStep_emoji nt uM eM inv opts s e hu henb he
    refine ⟨hw, ?_⟩
    rw [hc]
    have := List.length_pos.mpr hne
    omega
  · intro cluster uM eM inv opts henb hurl
    have h := scanLoop_weight_sum cluster uM eM inv opts hurl (Or.inl henb)
      cluster.length initialScanState (Nat.le_add_right _ _)
    simpa [initialScanState] using h

/-- **C4** witness: a two-code-point emoji cluster (mask emoji plus a modifier)
weighs 200 once with emoji parsing enabled (and the scan resumes past the
cluster), and 200 + 200 = 400 with emoji parsing disabled. -/
theorem c4_witness :
    defaultOptions.emoji_parsing_enabled = true ∧
    ((scanStep [128567, 127996] noEntities
        (fun i => if i == 0 then some (⟨[128567, 127996], (0, 2)⟩ : Entity) else none)
        noInvalid defaultOptions initialScanState).weighted_length = 200 ∧
      (scanStep [128567, 127996] noEntities
        (fun i => if i == 0 then some (⟨[128567, 127996], (0, 2)⟩ : Entity) else none)
        noInvalid defaultOptions initialScanState).char_index = 2) ∧
    (scanLoop [128567, 127996] noEntities noEntities noInvalid
        { defaultOptions with emoji_parsing_enabled := false }
        ([128567, 127996] : List Nat).length initialScanState).weighted_length = 400 :=
  ⟨rfl,
   c4_emoji_weighting.1 [128567, 127996] noEntities
      (fun i => if i == 0 then some (⟨[128567, 127996], (0, 2)⟩ : Entity) else none)
      noInvalid defaultOptions initialScanState ⟨[128567, 127996], (0, 2)⟩
      rfl rfl rfl (by decide),
   c4_emoji_weighting.2 [128567, 127996] noEntities noEntities noInvalid
      { defaultOptions with emoji_parsing_enabled := false } rfl (fun _ => rfl)⟩

/-- **C5** (confirmed): for the empty input text (whose normalization is the
empty text), `parse_tweet` returns `weightedLength = 0` and `valid = false` —
the scan loop never runs and the downstream `0 < weightedLength` check fails. -/
theorem c5_empty_text (nfc : List Nat → List Nat) (eu ee : List Nat → List Entity)
    (inv : List Nat → Bool) (opts : Options) (h : nfc [] = []) :
    (parse_tweet nfc eu ee inv [] opts).weightedLength = 0 ∧
    (parse_tweet nfc eu ee inv [] opts).valid = false := by
  constructor <;> simp [parse_tweet, h, scanLoop_zero, initialScanState]

/-- **C5** witness: instantiated with identity normalization. -/
theorem c5_witness :
    id ([] : List Nat) = [] ∧
    (parse_tweet id noSpans noSpans noInvalid [] defaultOptions).weightedLength = 0 ∧
    (parse_tweet id noSpans noSpans noInvalid [] defaultOptions).valid = false := by
  have h := c5_empty_text id noSpans noSpans noInvalid defaultOptions rfl
  exact ⟨rfl, h.1, h.2⟩

/-- **C6** (confirmed): within one call the scan's `valid` flag is monotone —
once it is false, no number of further loop iterations makes it true again. -/
theorem c6_valid_monotone (nt : List Nat) (uM eM : Nat → Option Entity)
    (inv : List Nat → Bool) (opts : Options) (fuel : Nat) :
    ∀ s : ScanState, s.valid = false →
      (scanLoop nt uM eM inv opts fuel s).valid = false := by
  induction fuel with
  | zero => intro s h; rw [scanLoop_zero]; exact h
  | succ f ih =>
      intro s h
      rw [scanLoop_succ]
      split
      · exact ih _ (scanStep_valid_false nt uM eM inv opts s h)
      · exact h

/-- **C6** witness: a state with `valid = false` stays false after running the
remaining loop iterations over a one-character text. -/
theorem c6_witness :
    ({ weighted_length := 0, valid_display_index := 0, valid := false,
        char_index := 0 } : ScanState).valid = false ∧
    (scanLoop [97] noEntities noEntities noInvalid defaultOptions 1
      { weighted_length := 0, valid_display_index := 0, valid := false,
        char_index := 0 }).valid = false :=
  ⟨rfl, c6_valid_monotone [97] noEntities noEntities noInvalid defaultOptions 1
    { weighted_length := 0, valid_display_index := 0, valid := false, char_index := 0 } rfl⟩

/-- **C7** (confirmed): normalization is applied internally, so whenever the
normalizer is idempotent on the input, `parse_tweet` of the normalized text and
`parse_tweet` of the text itself agree on `weightedLength` and `valid`. -/
theorem c7_normalization_idempotent (nfc : List Nat → List Nat)
    (eu ee : List Nat → List Entity) (inv : List Nat → Bool)
    (t : List Nat) (opts : Options) (hidem : nfc (nfc t) = nfc t) :
    (parse_tweet nfc eu ee inv (nfc t) opts).weightedLength
        = (parse_tweet nfc eu ee inv t opts).weightedLength ∧
    (parse_tweet nfc eu ee inv (nfc t) opts).valid
        = (parse_tweet nfc eu ee inv t opts).valid := by
  constructor <;> simp only [parse_tweet, hidem]

/-- **C7** witness: instantiated with identity normalization on `"a"`. -/
theorem c7_witness :
    id (id ([97] : List Nat)) = id [97] ∧
    (parse_tweet id noSpans noSpans noInvalid (id [97]) defaultOptions).weightedLength
        = (parse_tweet id noSpans noSpans noInvalid [97] defaultOptions).weightedLength ∧
    (parse_tweet id noSpans noSpans noInvalid (id [97]) defaultOptions).valid
        = (parse_tweet id noSpans noSpans noInvalid [97] defaultOptions).valid := by
  have h := c7_normalization_idempotent id noSpans noSpans noInvalid [97] defaultOptions rfl
  exact ⟨rfl, h.1, h.2⟩

theorem natDiv_eq_ratFloor (wl mx : Nat) :
    ((wl * 1000 / mx : Nat) : Int)
      = Int.floor (((wl : ℚ) / (mx : ℚ)) * 1000) := by
  have h0 : (0 : ℚ) ≤ (wl : ℚ) / (mx : ℚ) * 1000 := by positivity
  rw [← Int.natCast_floor_eq_floor h0]
  norm_cast
  rw [div_mul_eq_mul_div,
    show ((wl : ℚ) * 1000) = ((wl * 1000 : Nat) : ℚ) by push_cast; ring,
    Nat.floor_div_nat, Nat.floor_natCast]

/-- **C8** counterexample: a call whose descaled weighted length is 2261 under
`max_weighted_tweet_length = 280` (one character of weight 2261, scale 1).
Line 161 evaluates `(2261 / 280) * 1000` in binary64, giving 8074.999…, whose
floor is 8074 — one below the exact `⌊2261 / 280 * 1000⌋ = 8075` the claim
asserts. -/
theorem c8_counterexample :
    ¬ ((parse_tweet id noSpans noSpans noInvalid [97]
          { scale := 1, default_weight := 2261, max_weighted_tweet_length := 280,
            transformed_url_length := 23, emoji_parsing_enabled := true,
            ranges := [] }).permillage
        = Int.floor ((((parse_tweet id noSpans noSpans noInvalid [97]
              { scale := 1, default_weight := 2261, max_weighted_tweet_length := 280,
                transformed_url_length := 23, emoji_parsing_enabled := true,
                ranges := [] }).weightedLength : ℚ) / ((280 : Nat) : ℚ)) * 1000)) := by
  intro h
  rw [← natDiv_eq_ratFloor] at h
  exact absurd h (by decide)

/-- **C8** (corrected): for every call, the `permillage` field equals the floor
of the binary64 floating-point evaluation of
`(weightedLength / max_weighted_tweet_length) * 1000` — the integer division
correctly rounded to binary64, the product with 1000 rounded to binary64
again — computed from the descaled `weightedLength` field of the same result.
This can fall below the exact `⌊weightedLength / max * 1000⌋`. -/
theorem c8_permillage_binary64 (nfc : List Nat → List Nat)
    (eu ee : List Nat → List Entity) (inv : List Nat → Bool)
    (t : List Nat) (opts : Options) :
    (parse_tweet nfc eu ee inv t opts).permillage
      = (float_floor_permillage (parse_tweet nfc eu ee inv t opts).weightedLength
          opts.max_weighted_tweet_length : Int) := rfl

/-- **C9** (confirmed): a 281-code-point text, each code point of table weight
100, under a configuration with `scale = 100` and
`max_weighted_tweet_length = 280`, with no URL or emoji spans, yields
`weightedLength = 281` and `valid = false`. -/
theorem c9_overlong_text (nfc : List Nat → List Nat) (eu ee : List Nat → List Entity)
    (inv : List Nat → Bool) (t : List Nat) (opts : Options)
    (hn : nfc t = t) (hlen : t.length = 281)
    (hw : ∀ c ∈ t, get_character_weight c opts = 100)
    (hu : eu t = []) (he : ee t = [])
    (hscale : opts.scale = 100) (hmax : opts.max_weighted_tweet_length = 280) :
    (parse_tweet nfc eu ee inv t opts).weightedLength = 281 ∧
    (parse_tweet nfc eu ee inv t opts).valid = false := by
  have hsum := sum_map_const_weight opts 100 t hw
  have hfinal := scanLoop_weight_sum t (transform_entities_to_hash (eu t))
      (transform_entities_to_hash (ee t)) inv opts
      (by intro i; rw [hu]; rfl)
      (Or.inr (by intro i; rw [he]; rfl))
      t.length initialScanState (Nat.le_add_right _ _)
  constructor
  · show (parse_tweet nfc eu ee inv t opts).weightedLength = 281
    simp only [parse_tweet, hn]
    rw [hfinal]
    simp only [initialScanState, List.drop_zero, zero_add]
    rw [hsum, hlen, hscale]
  · show (parse_tweet nfc eu ee inv t opts).valid = false
    simp only [parse_tweet, hn]
    rw [hfinal]
    simp only [initialScanState, List.drop_zero, zero_add]
    rw [hsum, hlen, hscale, hmax]
    simp

/-- **C9** witness: 281 copies of `'a'` (code point 97, range weight 100) under
the default configuration give `weightedLength = 281` and `valid = false`. -/
theorem c9_witness :
    (List.replicate 281 97).length = 281 ∧
    (parse_tweet id noSpans noSpans noInvalid (List.replicate 281 97)
        defaultOptions).weightedLength = 281 ∧
    (parse_tweet id noSpans noSpans noInvalid (List.replicate 281 97)
        defaultOptions).valid = false := by
  have h := c9_overlong_text id noSpans noSpans noInvalid (List.replicate 281 97)
    defaultOptions rfl (List.length_replicate 281 97)
    (fun c hc => by rw [List.eq_of_mem_replicate hc]; decide)
    rfl rfl rfl rfl
  exact ⟨List.length_replicate 281 97, h.1, h.2⟩

/-- **C10** (confirmed): `count_utf16_bytes` returns the number of UTF-16 code
units of the string — one unit per code point below `0x10000`, two units
otherwise, the `- 1` cancelling exactly the byte-order mark that the `utf-16`
codec prepends — and 0 on the empty string. -/
theorem c10_count_utf16_bytes (s : List Nat) :
    count_utf16_bytes s = utf16_units s ∧ count_utf16_bytes [] = 0 :=
  ⟨count_utf16_bytes_eq_utf16_units s, rfl⟩
